import Mathlib

/-!
Shallow embedding of the Sniffle BLE connection-following core
(`src/fw/RadioTask.c`).  Machine integers are modelled as `Nat` with
explicit reduction modulo `2^32` (resp. `2^16`, `2^8`) wherever the C
code performs fixed-width arithmetic.  The global mutable variables of
the C file are gathered into one record `ConnState`; the two mutating
entry points `reactToPDU` and the per-connection-event bookkeeping of
`radioTaskFunction` become pure state transformers.  The mapping table
produced by `computeMap1` is stored as an `Option`: `none` marks the
zero-used-channels case, where the C code divides by zero and reads
uninitialized stack memory (no defined table exists there).
-/

namespace Sniffle

/-- Sniffer state enumeration from RadioTask.c (`enum SnifferState`):
`ADVERT` is the scanning state, `DATA` the connection-following state. -/
inductive SnifferState where
  | ADVERT : SnifferState
  | DATA : SnifferState
deriving DecidableEq

/-- Mirror of `struct RadioConfig`: chanMap is the uint64 channel bitmap
(only the low 37 bits are consulted), hopIntervalTicks a uint32,
offset a uint16 raw field, phy the PHY enumeration encoded as a Nat
(PHY_1M = 0). -/
structure RadioConfig where
  chanMap : Nat
  hopIntervalTicks : Nat
  offset : Nat
  phy : Nat
deriving DecidableEq

/-- The file-scope mutable variables of RadioTask.c gathered in a record.
`mapping_table` is `none` exactly when the last `computeMap1` call hit the
zero-used-channels division (undefined contents in C). -/
structure ConnState where
  snifferState : SnifferState
  mapping_table : Option (List Nat)
  rconf : RadioConfig
  accessAddress : Nat
  curUnmapped : Nat
  hopIncrement : Nat
  crcInit : Nat
  nextHopTime : Nat
  connEventCount : Nat
  next_rconf : RadioConfig
  nextInstant : Nat
  firstPacket : Bool
  anchorOffset : List Nat
  aoInd : Nat
deriving DecidableEq

/-- Mirror of the fields of `BLE_Frame` that `reactToPDU` reads:
radio channel, 32-bit timestamp, payload bytes, declared length. -/
structure BLE_Frame where
  channel : Nat
  timestamp : Nat
  pData : List Nat
  length : Nat
deriving DecidableEq

/-- Read of `pData[i]` as a uint8 (payload memory holds bytes). -/
def byteAt (l : List Nat) (i : Nat) : Nat := l.getD i 0 % 256

/-- Little-endian 16-bit read `*(uint16_t *)(pData + i)`. -/
def u16le (l : List Nat) (i : Nat) : Nat := byteAt l i + 256 * byteAt l (i + 1)

/-- Little-endian 32-bit read `*(uint32_t *)(pData + i)`. -/
def u32le (l : List Nat) (i : Nat) : Nat :=
  byteAt l i + 256 * byteAt l (i + 1) + 65536 * byteAt l (i + 2) +
    16777216 * byteAt l (i + 3)

/-- Little-endian 5-byte read: `memcpy(&chanMap, pData + i, 5)` into a
zeroed uint64. -/
def u40le (l : List Nat) (i : Nat) : Nat := u32le l i + 4294967296 * byteAt l (i + 4)

/-- Wrapping uint32 subtraction `a - b` (operands reduced mod `2^32`). -/
def sub32 (a b : Nat) : Nat := (a % 4294967296 + (4294967296 - b % 4294967296)) % 4294967296

/-- First loop of `computeMap1`: after iterations `i = 0 .. n-1`,
`remapping_table` holds the indices of the set bits of `map` in ascending
order (`numUsedChannels` is its length). -/
def remapLoop (map : Nat) : Nat → List Nat
  | 0 => []
  | n + 1 => remapLoop map n ++ (if map.testBit n then [n] else [])

/-- Translation of `computeMap1` (Channel Selection Algorithm #1): the
second loop writes `mapping_table[i] = i` for used channels and
`mapping_table[i] = remapping_table[i % numUsedChannels]` otherwise.
When `numUsedChannels = 0` the C code divides by zero and reads an
uninitialized entry, so no defined table is returned (`none`). -/
def computeMap1 (map : Nat) : Option (List Nat) :=
  let remap := remapLoop map 37
  if remap.length = 0 then none
  else some ((List.range 37).map fun i =>
    if map.testBit i then i else remap.getD (i % remap.length) 0)

/-- Signed reinterpretation of a uint32 value, as done by the `qsort`
comparator `_compare` (which casts both elements to `int32_t`). -/
def toS32 (v : Nat) : Int := if v < 2147483648 then (v : Int) else (v : Int) - 4294967296

/-- Element order used by `qsort` in `median`: ascending by the signed
32-bit reinterpretation of the stored uint32 values. -/
def cmpLE (a b : Nat) : Prop := toS32 a ≤ toS32 b

instance : DecidableRel cmpLE := fun a b => inferInstanceAs (Decidable (toS32 a ≤ toS32 b))

instance : IsTotal Nat cmpLE := ⟨fun a b => le_total (toS32 a) (toS32 b)⟩

instance : IsTrans Nat cmpLE := ⟨fun _ _ _ hab hbc => le_trans hab hbc⟩

/-- The in-place `qsort(arr, sz, 4, _compare)` call of `median`, as the
sorted list it leaves behind. -/
def sortList (l : List Nat) : List Nat := List.insertionSort cmpLE l

/-- Return value of `median`: element `arr[sz >> 1]` of the sorted array. -/
def median (arr : List Nat) : Nat := (sortList arr).getD (arr.length / 2) 0

/-- Line 125 of RadioTask.c: `nextHopTime += medAnchorOffset - AO_TARG`
in uint32 arithmetic (`AO_TARG = 4000`, 1 ms at 4 MHz). -/
def clockSyncAdjust (t : Nat) (arr : List Nat) : Nat :=
  (t + median arr + (4294967296 - 4000)) % 4294967296

/-- Condition of the pending-update check (lines 112-113):
`nextInstant != 0xFFFFFFFF && ((nextInstant - connEventCount) & 0xFFFF) == 0`. -/
def updateApplies (nextInstant connEventCount : Nat) : Bool :=
  nextInstant != 4294967295 && sub32 nextInstant connEventCount % 65536 == 0

/-- Lines 112-119 of `radioTaskFunction`: apply a staged update when its
instant is reached — replace `rconf`, advance `nextHopTime` by
`offset * 5000`, recompute the mapping table, clear the instant. -/
def applyPending (s : ConnState) : ConnState :=
  if updateApplies s.nextInstant s.connEventCount then
    { s with rconf := s.next_rconf,
             nextHopTime := (s.nextHopTime + s.next_rconf.offset * 5000) % 4294967296,
             mapping_table := computeMap1 s.next_rconf.chanMap,
             nextInstant := 4294967295 }
  else s

/-- One iteration of the DATA branch of `radioTaskFunction` (lines
107-126), with no frames delivered during the receive window (frame
arrivals are modelled separately by `reactToPDU`): set the first-packet
flag, hop the unmapped channel, increment the event counter, run the
pending-update applier, advance `nextHopTime` by the hop interval, and
every 16th event invoke the clock-sync filter (which sorts the anchor
buffer in place via `qsort`). -/
def connEventStep (s : ConnState) : ConnState :=
  let s1 : ConnState :=
    { s with firstPacket := true,
             curUnmapped := (s.curUnmapped + s.hopIncrement) % 37,
             connEventCount := (s.connEventCount + 1) % 4294967296 }
  let s2 := applyPending s1
  let s3 : ConnState :=
    { s2 with nextHopTime := (s2.nextHopTime + s2.rconf.hopIntervalTicks) % 4294967296 }
  if s3.connEventCount % 16 = 15 then
    { s3 with nextHopTime := clockSyncAdjust s3.nextHopTime s3.anchorOffset,
              anchorOffset := sortList s3.anchorOffset }
  else s3

/-- Lines 235-241: on the first packet of a connection event, record the
anchor-point offset `(timestamp << 2) + hopIntervalTicks - nextHopTime`
(uint32 arithmetic) into the ring buffer and clear the flag. -/
def anchorUpd (f : BLE_Frame) (s : ConnState) : ConnState :=
  if s.firstPacket then
    { s with anchorOffset := s.anchorOffset.set s.aoInd
               (sub32 (f.timestamp * 4 % 4294967296 + s.rconf.hopIntervalTicks) s.nextHopTime),
             aoInd := (s.aoInd + 1) % 16,
             firstPacket := false }
  else s

/-- Translation of `reactToPDU`: advertising branch (channel >= 37)
handles CONNECT_IND acceptance; data branch (channel < 37) records the
anchor point and dispatches LL Control PDUs by opcode. -/
def reactToPDU (f : BLE_Frame) (s : ConnState) : ConnState :=
  if 37 ≤ f.channel then
    if f.length < 2 then s
    else
      let pduType := byteAt f.pData 0 % 16
      let chSel := (byteAt f.pData 0).testBit 5
      let advLen := byteAt f.pData 1
      if f.length - 2 < advLen then s
      else if pduType = 5 then
        if advLen ≠ 34 then s
        else if chSel then s
        else
          let chanMap := u40le f.pData 30
          let winOffset := u16le f.pData 22
          let interval := u16le f.pData 24
          { s with accessAddress := u32le f.pData 14,
                   hopIncrement := byteAt f.pData 35 % 32,
                   crcInit := u32le f.pData 18 % 16777216,
                   curUnmapped := byteAt f.pData 35 % 32,
                   rconf := { chanMap := chanMap,
                              hopIntervalTicks := interval * 5000,
                              offset := s.rconf.offset,
                              phy := 0 },
                   mapping_table := computeMap1 chanMap,
                   nextHopTime := (f.timestamp * 4 % 4294967296 + 4000 + winOffset * 5000
                                    + interval * 5000) % 4294967296,
                   connEventCount := 0,
                   nextInstant := 4294967295,
                   snifferState := SnifferState.DATA }
      else s
  else
    let s1 := anchorUpd f s
    if f.length < 3 then s1
    else
      let llid := byteAt f.pData 0 % 4
      let datLen := byteAt f.pData 1
      let opcode := byteAt f.pData 2
      if llid ≠ 3 then s1
      else if f.length - 2 < datLen then s1
      else if opcode = 0 then
        { s1 with next_rconf := { chanMap := s1.rconf.chanMap,
                                  hopIntervalTicks := u16le f.pData 6 * 5000,
                                  offset := u16le f.pData 4,
                                  phy := s1.rconf.phy },
                  nextInstant := u16le f.pData 12 }
      else if opcode = 1 then
        { s1 with next_rconf := { chanMap := u40le f.pData 3,
                                  hopIntervalTicks := s1.rconf.hopIntervalTicks,
                                  offset := 0,
                                  phy := s1.rconf.phy },
                  nextInstant := u16le f.pData 8 }
      else if opcode = 2 then
        { s1 with snifferState := SnifferState.ADVERT }
      else if opcode = 24 then
        { s1 with next_rconf := { chanMap := s1.rconf.chanMap,
                                  hopIntervalTicks := s1.rconf.hopIntervalTicks,
                                  offset := 0,
                                  phy := byteAt f.pData 3 },
                  nextInstant := u16le f.pData 5 }
      else s1

/-! ### Claim-side definitions and helper lemmas -/

/-- Ascending list of the set-bit indices of a 37-bit channel map, as the
spec describes the remap table («the ascending list of set-bit indices»). -/
def chanList (map : Nat) : List Nat := (List.range 37).filter (fun i => map.testBit i)

theorem remapLoop_eq (map : Nat) :
    ∀ n, remapLoop map n = (List.range n).filter (fun i => map.testBit i) := by
  intro n
  induction n with
  | zero => rfl
  | succ k ih =>
    rw [remapLoop, ih, List.range_succ, List.filter_append]
    rcases h : map.testBit k with _ | _ <;> simp [h]

theorem getD_map_range (g : Nat → Nat) (n i : Nat) (h : i < n) :
    ((List.range n).map g).getD i 0 = g i := by
  rw [List.getD_eq_getElem _ _ (by simpa using h), List.getElem_map, List.getElem_range]

/-- C1: for every 37-bit channel map with at least 2 bits set, `computeMap1`
yields a 37-entry table where each used channel index maps to itself, each
unused index `i` maps to `remap[i mod usedCount]` with `remap` the ascending
list of set-bit indices, and the all-bits-set map yields the identity table.
Determinism and purity hold because `computeMap1` is a function of the
bitmap alone. -/
theorem computeMap1_csa1 (map : Nat) (h2 : 2 ≤ (chanList map).length) :
    ∃ t, computeMap1 map = some t ∧ t.length = 37 ∧
      (∀ i, i < 37 →
        (map.testBit i = true → t.getD i 0 = i) ∧
        (map.testBit i = false →
          t.getD i 0 = (chanList map).getD (i % (chanList map).length) 0)) ∧
      (map = 2 ^ 37 - 1 → t = List.range 37) := by
  have hre : remapLoop map 37 = chanList map := remapLoop_eq map 37
  have hne : ¬ (remapLoop map 37).length = 0 := by
    rw [hre]; omega
  refine ⟨(List.range 37).map fun i =>
      if map.testBit i then i else (remapLoop map 37).getD (i % (remapLoop map 37).length) 0,
    ?_, ?_, ?_, ?_⟩
  · rw [computeMap1]
    simp only [hne, if_false]
  · simp
  · intro i hi
    constructor
    · intro hbit
      rw [getD_map_range _ _ _ hi, hbit, if_pos rfl]
    · intro hbit
      rw [getD_map_range _ _ _ hi, hbit, hre]
      simp
  · intro hmap
    subst hmap
    decide

/-- Witness for C1 at the concrete bitmap 3 (bits 0 and 1 set). -/
theorem computeMap1_csa1_witness :
    2 ≤ (chanList 3).length ∧
    (∃ t, computeMap1 3 = some t ∧ t.length = 37 ∧
      (∀ i, i < 37 →
        (Nat.testBit 3 i = true → t.getD i 0 = i) ∧
        (Nat.testBit 3 i = false →
          t.getD i 0 = (chanList 3).getD (i % (chanList 3).length) 0)) ∧
      (3 = 2 ^ 37 - 1 → t = List.range 37)) :=
  ⟨by decide, computeMap1_csa1 3 (by decide)⟩

/-! ### Concrete sample configurations and states used by witnesses -/

/-- Sample active configuration: all 37 channels used. -/
def cfgA : RadioConfig :=
  { chanMap := 2 ^ 37 - 1, hopIntervalTicks := 120000, offset := 0, phy := 0 }

/-- Sample staged configuration with a two-channel map and a window offset. -/
def cfgB : RadioConfig :=
  { chanMap := 3, hopIntervalTicks := 60000, offset := 2, phy := 0 }

/-- Sample connection-following state with a staged update at instant 20. -/
def followState : ConnState :=
  { snifferState := SnifferState.DATA
    mapping_table := computeMap1 (2 ^ 37 - 1)
    rconf := cfgA
    accessAddress := 2391391958
    curUnmapped := 7
    hopIncrement := 7
    crcInit := 5592405
    nextHopTime := 1000000
    connEventCount := 20
    next_rconf := cfgB
    nextInstant := 20
    firstPacket := false
    anchorOffset := [16, 15, 14, 13, 12, 11, 10, 9, 8, 7, 6, 5, 4, 3, 2, 1]
    aoInd := 0 }

theorem updateApplies_iff (I C : Nat) (_hI : I < 4294967296) (_hC : C < 4294967296) :
    updateApplies I C = true ↔ I ≠ 4294967295 ∧ ((I : Int) - C) % 65536 = 0 := by
  unfold updateApplies sub32
  simp only [Bool.and_eq_true, bne_iff_ne, beq_iff_eq, ne_eq]
  constructor
  · rintro ⟨h1, h2⟩
    exact ⟨h1, by omega⟩
  · rintro ⟨h1, h2⟩
    exact ⟨h1, by omega⟩

/-- C2: the pending-update applier replaces the active config with the
staged one, adds `offset * 5000` to `nextHopTime`, recomputes the mapping
table and resets the staged instant to the sentinel, exactly when an update
is staged and `(instant - connEventCount) mod 65536 = 0`; and the 16-bit
wraparound example holds: instant 5 with counter 65531 applies after
exactly 10 more increments. -/
theorem applyPending_applies_iff (s : ConnState)
    (hI : s.nextInstant < 4294967296) (hC : s.connEventCount < 4294967296) :
    (applyPending s =
      if s.nextInstant ≠ 4294967295 ∧ ((s.nextInstant : Int) - s.connEventCount) % 65536 = 0 then
        { s with rconf := s.next_rconf,
                 nextHopTime := (s.nextHopTime + s.next_rconf.offset * 5000) % 4294967296,
                 mapping_table := computeMap1 s.next_rconf.chanMap,
                 nextInstant := 4294967295 }
      else s) ∧
    ((∀ k, k < 10 → updateApplies 5 (65531 + k) = false) ∧
      updateApplies 5 (65531 + 10) = true) := by
  constructor
  · rw [applyPending]
    by_cases h : s.nextInstant ≠ 4294967295 ∧
        ((s.nextInstant : Int) - s.connEventCount) % 65536 = 0
    · rw [if_pos ((updateApplies_iff _ _ hI hC).mpr h), if_pos h]
    · rw [if_neg (fun hh => h ((updateApplies_iff _ _ hI hC).mp hh)), if_neg h]
  · exact ⟨by decide, by decide⟩

/-- Witness for C2 at the concrete state `followState` (instant 20,
counter 20: the staged update applies). -/
theorem applyPending_applies_iff_witness :
    followState.nextInstant < 4294967296 ∧ followState.connEventCount < 4294967296 ∧
    ((applyPending followState =
      if followState.nextInstant ≠ 4294967295 ∧
          ((followState.nextInstant : Int) - followState.connEventCount) % 65536 = 0 then
        { followState with
            rconf := followState.next_rconf,
            nextHopTime :=
              (followState.nextHopTime + followState.next_rconf.offset * 5000) % 4294967296,
            mapping_table := computeMap1 followState.next_rconf.chanMap,
            nextInstant := 4294967295 }
      else followState) ∧
    ((∀ k, k < 10 → updateApplies 5 (65531 + k) = false) ∧
      updateApplies 5 (65531 + 10) = true)) :=
  ⟨by decide, by decide, applyPending_applies_iff followState (by decide) (by decide)⟩

/-- C3: an accepted CONNECT_IND (advertising channel, length ≥ 2, coherent
header length, PDU type 5, advLen = 34, channel-selection flag 0) makes
`reactToPDU` extract the access address from body offset 14, the 24-bit CRC
seed from offset 18, the hop increment from the low 5 bits of byte 35 and
the 5-byte channel map from offset 30, start hopping at the hop-increment
channel, set the first deadline to
`scaledTimestamp + 4000 + WinOffset*5000 + Interval*5000` with
`hopIntervalTicks = Interval*5000`, zero the event counter, clear the
staged update to the sentinel, and transition SCANNING→FOLLOWING. -/
theorem reactToPDU_connect (f : BLE_Frame) (s : ConnState)
    (hst : s.snifferState = SnifferState.ADVERT)
    (hch : 37 ≤ f.channel) (hlen : 36 ≤ f.length)
    (hty : byteAt f.pData 0 % 16 = 5)
    (hcs : (byteAt f.pData 0).testBit 5 = false)
    (hal : byteAt f.pData 1 = 34) :
    s.snifferState = SnifferState.ADVERT ∧
    reactToPDU f s =
      { s with accessAddress := u32le f.pData 14,
               crcInit := u32le f.pData 18 % 16777216,
               hopIncrement := byteAt f.pData 35 % 32,
               curUnmapped := byteAt f.pData 35 % 32,
               rconf := { chanMap := u40le f.pData 30,
                          hopIntervalTicks := u16le f.pData 24 * 5000,
                          offset := s.rconf.offset,
                          phy := 0 },
               mapping_table := computeMap1 (u40le f.pData 30),
               nextHopTime := (f.timestamp * 4 + 4000 + u16le f.pData 22 * 5000
                                + u16le f.pData 24 * 5000) % 4294967296,
               connEventCount := 0,
               nextInstant := 4294967295,
               snifferState := SnifferState.DATA } := by
  refine ⟨hst, ?_⟩
  have h1 : ¬ f.length < 2 := by omega
  have h2 : ¬ (f.length - 2 < 34) := by omega
  simp only [reactToPDU, hch, h1, hty, hal, hcs, h2, if_true, if_false]
  norm_num
  omega

/-- C4: an advertising-channel CONNECT_IND whose advertising length is not
34 or whose channel-selection flag is set leaves the whole state unchanged
(in particular the state machine stays SCANNING and no parameter, counter
or staged update moves). -/
theorem reactToPDU_connect_reject (f : BLE_Frame) (s : ConnState)
    (hch : 37 ≤ f.channel) (hty : byteAt f.pData 0 % 16 = 5)
    (hbad : byteAt f.pData 1 ≠ 34 ∨ (byteAt f.pData 0).testBit 5 = true) :
    reactToPDU f s = s := by
  simp only [reactToPDU, hch, if_true]
  split_ifs with h1 h2 h3 h4
  any_goals rfl
  rcases hbad with hb | hb <;> simp_all

/-- Witness frame for C3: a well-formed CONNECT_IND on channel 37 with
access address 0x12345678 at offset 14, WinOffset 2, Interval 6, all-used
channel map at offset 30 and hop increment 7 in byte 35. -/
def connectFrame : BLE_Frame :=
  { channel := 37
    timestamp := 1000
    pData := [5, 34, 1, 2, 3, 4, 5, 6, 7, 8, 9, 10, 11, 12,
              120, 86, 52, 18,
              17, 34, 51, 68,
              2, 0,
              6, 0,
              0, 0, 0, 0,
              255, 255, 255, 255, 31,
              71]
    length := 36 }

/-- Sample scanning-state variant of `followState`. -/
def scanState : ConnState := { followState with snifferState := SnifferState.ADVERT }

/-- Witness for C3 at `connectFrame` applied to `scanState`. -/
theorem reactToPDU_connect_witness :
    scanState.snifferState = SnifferState.ADVERT ∧ 37 ≤ connectFrame.channel ∧
    36 ≤ connectFrame.length ∧ byteAt connectFrame.pData 0 % 16 = 5 ∧
    (byteAt connectFrame.pData 0).testBit 5 = false ∧ byteAt connectFrame.pData 1 = 34 ∧
    (scanState.snifferState = SnifferState.ADVERT ∧
      reactToPDU connectFrame scanState =
        { scanState with
            accessAddress := u32le connectFrame.pData 14,
            crcInit := u32le connectFrame.pData 18 % 16777216,
            hopIncrement := byteAt connectFrame.pData 35 % 32,
            curUnmapped := byteAt connectFrame.pData 35 % 32,
            rconf := { chanMap := u40le connectFrame.pData 30,
                       hopIntervalTicks := u16le connectFrame.pData 24 * 5000,
                       offset := scanState.rconf.offset,
                       phy := 0 },
            mapping_table := computeMap1 (u40le connectFrame.pData 30),
            nextHopTime := (connectFrame.timestamp * 4 + 4000 + u16le connectFrame.pData 22 * 5000
                             + u16le connectFrame.pData 24 * 5000) % 4294967296,
            connEventCount := 0,
            nextInstant := 4294967295,
            snifferState := SnifferState.DATA }) :=
  ⟨rfl, by decide, by decide, by decide, by decide, by decide,
    reactToPDU_connect connectFrame scanState rfl (by decide) (by decide) (by decide)
      (by decide) (by decide)⟩

/-- Witness frame for C4: CONNECT_IND header but advertising length 33. -/
def badLenFrame : BLE_Frame :=
  { channel := 38, timestamp := 0, pData := [5, 33], length := 40 }

/-- Witness for C4 at `badLenFrame` applied to `scanState`. -/
theorem reactToPDU_connect_reject_witness :
    37 ≤ badLenFrame.channel ∧ byteAt badLenFrame.pData 0 % 16 = 5 ∧
    (byteAt badLenFrame.pData 1 ≠ 34 ∨ (byteAt badLenFrame.pData 0).testBit 5 = true) ∧
    reactToPDU badLenFrame scanState = scanState :=
  ⟨by decide, by decide, Or.inl (by decide),
    reactToPDU_connect_reject badLenFrame scanState (by decide) (by decide)
      (Or.inl (by decide))⟩

/-! ### Data-channel control PDU dispatch -/

theorem anchorUpd_rconf (f : BLE_Frame) (s : ConnState) :
    (anchorUpd f s).rconf = s.rconf := by
  rw [anchorUpd]; split_ifs <;> rfl

theorem anchorUpd_next_rconf (f : BLE_Frame) (s : ConnState) :
    (anchorUpd f s).next_rconf = s.next_rconf := by
  rw [anchorUpd]; split_ifs <;> rfl

theorem anchorUpd_nextInstant (f : BLE_Frame) (s : ConnState) :
    (anchorUpd f s).nextInstant = s.nextInstant := by
  rw [anchorUpd]; split_ifs <;> rfl

/-- Claim-side rendition of the §4.3 opcode table: the effect of an LL
Control PDU on the connection state, phrased against the active config
`s.rconf` — 0x00 keeps map and PHY and takes offset, interval and instant
from the PDU; 0x01 takes a fresh 5-byte map and instant with offset 0;
0x02 drops back to scanning; 0x18 takes the PHY and instant with offset 0;
anything else changes nothing beyond the anchor bookkeeping. -/
def controlDispatch (f : BLE_Frame) (s : ConnState) : ConnState :=
  let s1 := anchorUpd f s
  if byteAt f.pData 2 = 0 then
    { s1 with next_rconf := { chanMap := s.rconf.chanMap,
                              hopIntervalTicks := u16le f.pData 6 * 5000,
                              offset := u16le f.pData 4,
                              phy := s.rconf.phy },
              nextInstant := u16le f.pData 12 }
  else if byteAt f.pData 2 = 1 then
    { s1 with next_rconf := { chanMap := u40le f.pData 3,
                              hopIntervalTicks := s.rconf.hopIntervalTicks,
                              offset := 0,
                              phy := s.rconf.phy },
              nextInstant := u16le f.pData 8 }
  else if byteAt f.pData 2 = 2 then
    { s1 with snifferState := SnifferState.ADVERT }
  else if byteAt f.pData 2 = 24 then
    { s1 with next_rconf := { chanMap := s.rconf.chanMap,
                              hopIntervalTicks := s.rconf.hopIntervalTicks,
                              offset := 0,
                              phy := byteAt f.pData 3 },
              nextInstant := u16le f.pData 5 }
  else s1

theorem reactToPDU_data_dispatch (f : BLE_Frame) (s : ConnState)
    (hch : f.channel < 37) (hlen : 3 ≤ f.length)
    (hll : byteAt f.pData 0 % 4 = 3)
    (hcoh : ¬ (f.length - 2 < byteAt f.pData 1)) :
    reactToPDU f s = controlDispatch f s := by
  have hnc : ¬ 37 ≤ f.channel := by omega
  have hl3 : ¬ f.length < 3 := by omega
  simp only [reactToPDU, controlDispatch, hnc, hl3, hll, hcoh, anchorUpd_rconf,
    if_false, ne_eq, not_true_eq_false]

/-- C5: a data-channel LL Control PDU (LLID 3, coherent lengths) stages
exactly the update of the opcode table — 0x00 keeps the channel map and
PHY, takes offset, interval (field × 5000) and instant from the PDU; 0x01
takes the new 5-byte map and instant with offset 0; 0x02 transitions
FOLLOWING→SCANNING immediately; 0x18 takes the PHY and instant with offset
0; other opcodes stage nothing — and the staged fields are overwritten
wholesale, independent of any previously staged, unapplied update. -/
theorem reactToPDU_control (f : BLE_Frame) (s : ConnState)
    (hch : f.channel < 37) (hlen : 3 ≤ f.length)
    (hll : byteAt f.pData 0 % 4 = 3)
    (hcoh : ¬ (f.length - 2 < byteAt f.pData 1)) :
    reactToPDU f s = controlDispatch f s ∧
    ((byteAt f.pData 2 = 0 ∨ byteAt f.pData 2 = 1 ∨ byteAt f.pData 2 = 24) →
      ∀ c0 i0, (reactToPDU f { s with next_rconf := c0, nextInstant := i0 }).next_rconf
                 = (reactToPDU f s).next_rconf ∧
               (reactToPDU f { s with next_rconf := c0, nextInstant := i0 }).nextInstant
                 = (reactToPDU f s).nextInstant) := by
  have hmain := reactToPDU_data_dispatch f s hch hlen hll hcoh
  refine ⟨hmain, ?_⟩
  intro hop c0 i0
  rw [hmain, reactToPDU_data_dispatch _ _ hch hlen hll hcoh]
  rcases hop with h | h | h <;> simp [controlDispatch, h]

/-- Witness frame for C5: LL_CONNECTION_UPDATE_IND with offset 10,
interval 8 and instant 25. -/
def cuFrame : BLE_Frame :=
  { channel := 5, timestamp := 500,
    pData := [3, 12, 0, 0, 10, 0, 8, 0, 0, 0, 0, 0, 25, 0], length := 14 }

/-- Witness for C5 at `cuFrame` applied to `followState`, with the
overwrite conjunct instantiated at staged config `cfgA`, instant 7. -/
theorem reactToPDU_control_witness :
    cuFrame.channel < 37 ∧ 3 ≤ cuFrame.length ∧ byteAt cuFrame.pData 0 % 4 = 3 ∧
    ¬ (cuFrame.length - 2 < byteAt cuFrame.pData 1) ∧
    reactToPDU cuFrame followState = controlDispatch cuFrame followState ∧
    ((reactToPDU cuFrame { followState with next_rconf := cfgA, nextInstant := 7 }).next_rconf
        = (reactToPDU cuFrame followState).next_rconf ∧
      (reactToPDU cuFrame { followState with next_rconf := cfgA, nextInstant := 7 }).nextInstant
        = (reactToPDU cuFrame followState).nextInstant) :=
  ⟨by decide, by decide, by decide, by decide,
    (reactToPDU_control cuFrame followState (by decide) (by decide) (by decide) (by decide)).1,
    (reactToPDU_control cuFrame followState (by decide) (by decide) (by decide)
        (by decide)).2 (Or.inl (by decide)) cfgA 7⟩

/-! ### Short data frames (C6) -/

/-- Witness frame for C6: a data-channel frame of length 2 (no opcode). -/
def shortFrame : BLE_Frame :=
  { channel := 0, timestamp := 250, pData := [1, 0], length := 2 }

/-- Sample following state whose first-packet flag is still set. -/
def firstPktState : ConnState := { followState with firstPacket := true }

/-- C6 counterexample: on a data-channel frame of length 2 arriving while
the first-packet flag is set, `reactToPDU` does mutate state — the anchor
bookkeeping (history entry, write index, flag) runs before the length
check, so the state is not left unchanged as the claim asserts. -/
theorem reactToPDU_short_cex :
    shortFrame.channel < 37 ∧ shortFrame.length < 3 ∧
    reactToPDU shortFrame firstPktState ≠ firstPktState ∧
    (reactToPDU shortFrame firstPktState).firstPacket ≠ firstPktState.firstPacket ∧
    (reactToPDU shortFrame firstPktState).aoInd ≠ firstPktState.aoInd := by decide

/-- C6 amended: a data-channel frame with length < 3 is discarded by early
return with no state mutation beyond the first-packet anchor bookkeeping,
which runs before the length check; in particular when the first-packet
flag is already clear the state is left fully unchanged. -/
theorem reactToPDU_short_data (f : BLE_Frame) (s : ConnState)
    (hch : f.channel < 37) (hlen : f.length < 3) :
    reactToPDU f s = anchorUpd f s ∧
    (s.firstPacket = false → reactToPDU f s = s) := by
  have hnc : ¬ 37 ≤ f.channel := by omega
  constructor
  · simp only [reactToPDU, hnc, if_false, hlen, if_true]
  · intro hfp
    simp [reactToPDU, hnc, hlen, anchorUpd, hfp]

/-- Witness for the amended C6 at `shortFrame` applied to `followState`
(whose first-packet flag is clear). -/
theorem reactToPDU_short_data_witness :
    shortFrame.channel < 37 ∧ shortFrame.length < 3 ∧
    (reactToPDU shortFrame followState = anchorUpd shortFrame followState ∧
      (followState.firstPacket = false → reactToPDU shortFrame followState = followState)) :=
  ⟨by decide, by decide, reactToPDU_short_data shortFrame followState (by decide) (by decide)⟩

/-! ### The pending-update applier has no channel-map guard (C7) -/

/-- Sample state with a staged update whose channel map has exactly one
set bit, due at the current event count. -/
def oneBitStaged : ConnState :=
  { followState with
      next_rconf := { chanMap := 1, hopIntervalTicks := 60000, offset := 2, phy := 0 } }

/-- C7 counterexample: the staged channel map of `oneBitStaged` has exactly
one set bit (fewer than 2), yet the applier applies the update — the active
config is replaced and the instant cleared — instead of rejecting it as the
claim asserts. -/
theorem applyPending_no_guard_cex :
    chanList oneBitStaged.next_rconf.chanMap = [0] ∧
    applyPending oneBitStaged ≠ oneBitStaged ∧
    (applyPending oneBitStaged).rconf = oneBitStaged.next_rconf ∧
    (applyPending oneBitStaged).nextInstant = 4294967295 := by decide

/-- C7 amended: the applier validates nothing about the staged channel map:
whenever the instant condition holds it applies the staged update wholesale,
whatever the number of set bits; the zero-used-channels case reaches the
channel map engine unguarded, where no defined mapping table exists
(`computeMap1 0 = none`, the modelled division by zero). -/
theorem applyPending_unguarded (s : ConnState)
    (h : updateApplies s.nextInstant s.connEventCount = true) :
    applyPending s =
      { s with rconf := s.next_rconf,
               nextHopTime := (s.nextHopTime + s.next_rconf.offset * 5000) % 4294967296,
               mapping_table := computeMap1 s.next_rconf.chanMap,
               nextInstant := 4294967295 } ∧
    computeMap1 0 = none :=
  ⟨by rw [applyPending, if_pos h], by decide⟩

/-- Witness for the amended C7 at `oneBitStaged`. -/
theorem applyPending_unguarded_witness :
    updateApplies oneBitStaged.nextInstant oneBitStaged.connEventCount = true ∧
    (applyPending oneBitStaged =
      { oneBitStaged with
          rconf := oneBitStaged.next_rconf,
          nextHopTime :=
            (oneBitStaged.nextHopTime + oneBitStaged.next_rconf.offset * 5000) % 4294967296,
          mapping_table := computeMap1 oneBitStaged.next_rconf.chanMap,
          nextInstant := 4294967295 } ∧
      computeMap1 0 = none) :=
  ⟨by decide, applyPending_unguarded oneBitStaged (by decide)⟩

/-! ### Clock sync filter (C8, C9) -/

theorem toS32_inj (a b : Nat) (ha : a < 4294967296) (hb : b < 4294967296)
    (h : toS32 a = toS32 b) : a = b := by
  unfold toS32 at h
  split_ifs at h <;> omega

theorem map_toS32_inj (l1 : List Nat) : ∀ l2, (∀ x ∈ l1, x < 4294967296) →
    (∀ x ∈ l2, x < 4294967296) → l1.map toS32 = l2.map toS32 → l1 = l2 := by
  induction l1 with
  | nil =>
    intro l2 _ _ h
    cases l2 with
    | nil => rfl
    | cons b t => simp at h
  | cons a t ih =>
    intro l2 h1 h2 h
    cases l2 with
    | nil => simp at h
    | cons b t2 =>
      simp only [List.map_cons, List.cons.injEq] at h
      have hab := toS32_inj a b (h1 a (by simp)) (h2 b (by simp)) h.1
      have hts := ih t2 (fun x hx => h1 x (by simp [hx])) (fun x hx => h2 x (by simp [hx])) h.2
      rw [hab, hts]

theorem sorted_perm_eq (l1 l2 : List Nat) (hb : ∀ x ∈ l1, x < 4294967296)
    (hp : l1.Perm l2) (hs1 : l1.Sorted cmpLE) (hs2 : l2.Sorted cmpLE) : l1 = l2 := by
  have hb2 : ∀ x ∈ l2, x < 4294967296 := fun x hx => hb x (hp.mem_iff.mpr hx)
  have hpm : (l1.map toS32).Perm (l2.map toS32) := hp.map toS32
  have hsm1 : (l1.map toS32).Sorted (· ≤ ·) := by
    rw [List.Sorted, List.pairwise_map]
    exact hs1
  have hsm2 : (l2.map toS32).Sorted (· ≤ ·) := by
    rw [List.Sorted, List.pairwise_map]
    exact hs2
  exact map_toS32_inj l1 l2 hb hb2 (List.eq_of_perm_of_sorted hpm hsm1 hsm2)

/-- C8: on a 16-sample history, the clock-sync filter picks the element at
index `16 / 2 = 8` of the ascending-sorted samples (ascending in the signed
32-bit order used by the `qsort` comparator), and the correction applied to
`nextHopTime` is that element minus the 1 ms target constant 4000, in
wrapping 32-bit arithmetic. -/
theorem median_filter (h srt : List Nat) (hlen : h.length = 16)
    (hb : ∀ x ∈ h, x < 4294967296) (hperm : srt.Perm h) (hsort : srt.Sorted cmpLE) :
    median h = srt.getD 8 0 ∧
    (∀ t, clockSyncAdjust t h = (t + srt.getD 8 0 + (4294967296 - 4000)) % 4294967296) := by
  have h1 : (sortList h).Perm h := List.perm_insertionSort cmpLE h
  have h2 : (sortList h).Sorted cmpLE := List.sorted_insertionSort cmpLE h
  have hbs : ∀ x ∈ srt, x < 4294967296 := fun x hx => hb x (hperm.subset hx)
  have heq : srt = sortList h :=
    sorted_perm_eq srt (sortList h) hbs (hperm.trans h1.symm) hsort h2
  have hm : median h = srt.getD 8 0 := by
    rw [median, hlen, heq]
  exact ⟨hm, fun t => by rw [clockSyncAdjust, hm]⟩

/-- Witness for C8 at an already ascending 16-sample history. -/
theorem median_filter_witness :
    [1, 2, 3, 4, 5, 6, 7, 8, 9, 10, 11, 12, 13, 14, 15, 16].length = 16 ∧
    (∀ x ∈ [1, 2, 3, 4, 5, 6, 7, 8, 9, 10, 11, 12, 13, 14, 15, 16], x < 4294967296) ∧
    List.Perm [1, 2, 3, 4, 5, 6, 7, 8, 9, 10, 11, 12, 13, 14, 15, 16]
      [1, 2, 3, 4, 5, 6, 7, 8, 9, 10, 11, 12, 13, 14, 15, 16] ∧
    List.Sorted cmpLE [1, 2, 3, 4, 5, 6, 7, 8, 9, 10, 11, 12, 13, 14, 15, 16] ∧
    (median [1, 2, 3, 4, 5, 6, 7, 8, 9, 10, 11, 12, 13, 14, 15, 16] =
        [1, 2, 3, 4, 5, 6, 7, 8, 9, 10, 11, 12, 13, 14, 15, 16].getD 8 0 ∧
      (∀ t, clockSyncAdjust t [1, 2, 3, 4, 5, 6, 7, 8, 9, 10, 11, 12, 13, 14, 15, 16] =
        (t + [1, 2, 3, 4, 5, 6, 7, 8, 9, 10, 11, 12, 13, 14, 15, 16].getD 8 0 +
          (4294967296 - 4000)) % 4294967296)) :=
  ⟨rfl, by decide, List.Perm.refl _, by decide,
    median_filter [1, 2, 3, 4, 5, 6, 7, 8, 9, 10, 11, 12, 13, 14, 15, 16]
      [1, 2, 3, 4, 5, 6, 7, 8, 9, 10, 11, 12, 13, 14, 15, 16] rfl (by decide)
      (List.Perm.refl _) (by decide)⟩

theorem applyPending_connEventCount (s : ConnState) :
    (applyPending s).connEventCount = s.connEventCount := by
  rw [applyPending]; split_ifs <;> rfl

theorem applyPending_anchorOffset (s : ConnState) :
    (applyPending s).anchorOffset = s.anchorOffset := by
  rw [applyPending]; split_ifs <;> rfl

/-- Sample following state one event before a sync-filter invocation
(counter 14, no staged update, unsorted anchor history). -/
def preSyncState : ConnState :=
  { followState with connEventCount := 14, nextInstant := 4294967295 }

/-- C9 counterexample: invoking the clock-sync filter during the connection
event changes the contents order of the 16-slot anchor-offset history — the
`qsort` inside `median` sorts the live buffer in place, so the history does
not read back as it was before the invocation. -/
theorem clockSync_inplace_cex :
    (connEventStep preSyncState).anchorOffset ≠ preSyncState.anchorOffset := by decide

/-- C9 amended: the filter invocation sorts the history buffer in place:
after the event the buffer holds exactly the old samples reordered
ascending (in the signed 32-bit order of the comparator) — a permutation of the
previous contents, but not the previous order in general. -/
theorem clockSync_sorts_inplace (s : ConnState)
    (hc : (s.connEventCount + 1) % 4294967296 % 16 = 15) :
    (connEventStep s).anchorOffset = sortList s.anchorOffset ∧
    (sortList s.anchorOffset).Perm s.anchorOffset ∧
    (sortList s.anchorOffset).Sorted cmpLE := by
  refine ⟨?_, List.perm_insertionSort cmpLE _, List.sorted_insertionSort cmpLE _⟩
  simp [connEventStep, applyPending_connEventCount, applyPending_anchorOffset, hc]

/-- Witness for the amended C9 at `preSyncState`. -/
theorem clockSync_sorts_inplace_witness :
    (preSyncState.connEventCount + 1) % 4294967296 % 16 = 15 ∧
    ((connEventStep preSyncState).anchorOffset = sortList preSyncState.anchorOffset ∧
      (sortList preSyncState.anchorOffset).Perm preSyncState.anchorOffset ∧
      (sortList preSyncState.anchorOffset).Sorted cmpLE) :=
  ⟨by decide, clockSync_sorts_inplace preSyncState (by decide)⟩

/-! ### Sentinel invariant for the staged instant (C10) -/

/-- Invariant from the claim: the staged instant is either the 32-bit
sentinel (nothing staged) or a genuine 16-bit instant value. -/
def instantWellFormed (s : ConnState) : Prop :=
  s.nextInstant = 4294967295 ∨ s.nextInstant < 65536

theorem u16le_lt (l : List Nat) (i : Nat) : u16le l i < 65536 := by
  unfold u16le byteAt
  omega

theorem applyPending_wf (s : ConnState) (hs : instantWellFormed s) :
    instantWellFormed (applyPending s) := by
  rw [applyPending]
  split_ifs with h
  · exact Or.inl rfl
  · exact hs

theorem connEventStep_nextInstant (s : ConnState) :
    (connEventStep s).nextInstant = (applyPending
      { s with firstPacket := true,
               curUnmapped := (s.curUnmapped + s.hopIncrement) % 37,
               connEventCount := (s.connEventCount + 1) % 4294967296 }).nextInstant := by
  simp only [connEventStep]
  split_ifs <;> rfl

/-- C10: every instant staged by a control PDU is a 16-bit read, hence
under 65536 and never equal to the sentinel 0xFFFFFFFF; the invariant
«nextInstant is the sentinel or a 16-bit value» is preserved by frame
reaction (connect and stage), by the pending-update applier and by the
whole connection-event step, and a staging control PDU always leaves a
non-sentinel instant — so sentinel ⇔ nothing staged is unambiguous. -/
theorem nextInstant_sentinel_invariant (f : BLE_Frame) (s : ConnState)
    (hs : instantWellFormed s) :
    (∀ l i, u16le l i < 65536) ∧
    instantWellFormed (reactToPDU f s) ∧
    instantWellFormed (applyPending s) ∧
    instantWellFormed (connEventStep s) ∧
    (f.channel < 37 → 3 ≤ f.length → byteAt f.pData 0 % 4 = 3 →
      ¬ (f.length - 2 < byteAt f.pData 1) →
      (byteAt f.pData 2 = 0 ∨ byteAt f.pData 2 = 1 ∨ byteAt f.pData 2 = 24) →
      (reactToPDU f s).nextInstant ≠ 4294967295 ∧
        (reactToPDU f s).nextInstant < 65536) := by
  refine ⟨fun l i => u16le_lt l i, ?_, applyPending_wf s hs, ?_, ?_⟩
  · simp only [reactToPDU]
    split_ifs <;> simp_all [instantWellFormed, anchorUpd_nextInstant, u16le_lt]
  · have h1 : instantWellFormed (applyPending
        { s with firstPacket := true,
                 curUnmapped := (s.curUnmapped + s.hopIncrement) % 37,
                 connEventCount := (s.connEventCount + 1) % 4294967296 }) :=
      applyPending_wf _ hs
    unfold instantWellFormed at h1 ⊢
    rw [connEventStep_nextInstant]
    exact h1
  · intro hch hlen hll hcoh hop
    rw [reactToPDU_data_dispatch f s hch hlen hll hcoh]
    rcases hop with h | h | h
    · simp only [controlDispatch, h, if_true, if_pos]
      exact ⟨by have h16 := u16le_lt f.pData 12; omega, u16le_lt f.pData 12⟩
    · simp [controlDispatch, h]
      exact ⟨by have h16 := u16le_lt f.pData 8; omega, u16le_lt f.pData 8⟩
    · simp [controlDispatch, h]
      exact ⟨by have h16 := u16le_lt f.pData 5; omega, u16le_lt f.pData 5⟩

/-- Witness for C10 at `cuFrame` applied to `followState`. -/
theorem nextInstant_sentinel_invariant_witness :
    instantWellFormed followState ∧
    u16le cuFrame.pData 12 < 65536 ∧
    instantWellFormed (reactToPDU cuFrame followState) ∧
    instantWellFormed (applyPending followState) ∧
    instantWellFormed (connEventStep followState) ∧
    ((reactToPDU cuFrame followState).nextInstant ≠ 4294967295 ∧
      (reactToPDU cuFrame followState).nextInstant < 65536) :=
  have happ := nextInstant_sentinel_invariant cuFrame followState (Or.inr (by decide))
  ⟨Or.inr (by decide), happ.1 cuFrame.pData 12, happ.2.1, happ.2.2.1, happ.2.2.2.1,
    happ.2.2.2.2 (by decide) (by decide) (by decide) (by decide) (Or.inl (by decide))⟩

end Sniffle
